import Mathlib

/-!
Verification of the Intcode virtual machine of `advent-2019-rust`
(files `src/day-2/main.rs` and `src/day-5/main.rs`).

Modelling conventions:
* `Scalar` is Rust `usize` on a 64-bit target, embedded as `Nat`; arithmetic
  that the source performs with native `+` / `*` is reduced modulo
  `WORD = 2 ^ 64` (release-mode wrapping; debug builds abort on overflow, so
  theorems that need exact arithmetic carry an explicit no-overflow bound
  making them valid under either build mode).
* Rust in-place memory mutation becomes explicit state passing: `apply`
  returns the resulting memory next to the `Result`, so that the memory left
  behind by a failing instruction is part of the model.
* A Rust panic (index underflow, `Option::unwrap` on `None`) is a distinct
  outcome, encoded with `PResult.panic` / `Option.none` wrappers.
* The unbounded `run()` loop is embedded with explicit fuel; `none` means the
  fuel ran out, any `some` is the genuine result of the loop.
-/

set_option maxRecDepth 8192

namespace Intcode

/-- Width of `usize` on the 64-bit targets the crate builds for. -/
def WORD : Nat := 2 ^ 64

/-- Error taxonomy of the two day files (they carry `anyhow` messages; the
constructors keep the distinguishing payloads). -/
inductive VMError where
  /-- "Memory overflow on read at index {i}" -/
  | readOutOfBounds (index : Nat)
  /-- "Memory overflow on write at index {i}" -/
  | writeOutOfBounds (index : Nat)
  /-- "Operation::decode unknown opcode {code}" -/
  | unknownOpcode (code : Nat)
  /-- "cannot parse tape scalar: {token}" (day-5 `TryFrom<String>`) -/
  | cannotParseScalar (token : String)
  /-- "opcode decoding: cannot parse value: {s}" (day-5 `decode`) -/
  | opcodeParseFailure (text : String)
  /-- "compute_solution_2: could not find solution in problem space" -/
  | noSolutionFound
  deriving DecidableEq

instance {ε α : Type} [DecidableEq ε] [DecidableEq α] : DecidableEq (Except ε α) := fun x y =>
  match x, y with
  | .ok a, .ok b => if h : a = b then .isTrue (by rw [h]) else .isFalse (by simp [h])
  | .error a, .error b => if h : a = b then .isTrue (by rw [h]) else .isFalse (by simp [h])
  | .ok _, .error _ => .isFalse (by simp)
  | .error _, .ok _ => .isFalse (by simp)

/-- Whether an error is one of the two memory-bounds faults. -/
def VMError.isOutOfBounds : VMError → Bool
  | .readOutOfBounds _ => true
  | .writeOutOfBounds _ => true
  | _ => false

/-- `Memory::get_scalar_at` / `MemoryBank::get_scalar_at` (identical in both
day files): `self.get(index).copied()` with an error context on `None`. -/
def getScalarAt (mem : List Nat) (index : Nat) : Except VMError Nat :=
  match mem[index]? with
  | some v => .ok v
  | none => .error (.readOutOfBounds index)

/-- `Memory::set_scalar_at` / `MemoryBank::set_scalar_at`: `self.get_mut(index)`
then in-place store; the memory is untouched when the index is out of range. -/
def setScalarAt (mem : List Nat) (index value : Nat) : Except VMError (List Nat) :=
  match mem[index]? with
  | some _ => .ok (mem.set index value)
  | none => .error (.writeOutOfBounds index)

/-- `VirtualMachine`: a program counter and the owned memory bank (both day
files declare exactly these two fields). -/
structure VM where
  programCounter : Nat
  memory : List Nat
  deriving DecidableEq

/-- `VirtualMachine::from_tape`: copies the tape, program counter 0. -/
def VM.fromTape (tape : List Nat) : VM := ⟨0, tape⟩

/-- Result of a computation that may also abort the process (Rust panic). -/
inductive PResult (α : Type) where
  | panic
  | error (e : VMError)
  | ok (a : α)
  deriving DecidableEq

namespace Day2

/-- `Instruction` of `day-2/main.rs`: `Add`, `Multiply` (lhs_at, rhs_at,
output_at) and `Halt`. -/
inductive Instruction where
  | add (lhsAt rhsAt outputAt : Nat)
  | mul (lhsAt rhsAt outputAt : Nat)
  | halt
  deriving DecidableEq

/-- The memory addresses an instruction reads or writes through `apply`. -/
def Instruction.refs : Instruction → List Nat
  | .add a b dst => [a, b, dst]
  | .mul a b dst => [a, b, dst]
  | .halt => []

/-- `Instruction::decode` of day-2: match the full opcode word against
`1` / `2` / `99` (`OPERATION_CODE_{ADD,MULTIPLY,HALT}`); for the two binary
operations read the three cells `pc+1 .. pc+3` as operand addresses. -/
def decode (pc code : Nat) (mem : List Nat) : Except VMError Instruction :=
  if code = 99 then .ok .halt
  else if code = 1 || code = 2 then
    match getScalarAt mem (pc + 1) with
    | .error e => .error e
    | .ok lhsAt =>
      match getScalarAt mem (pc + 2) with
      | .error e => .error e
      | .ok rhsAt =>
        match getScalarAt mem (pc + 3) with
        | .error e => .error e
        | .ok outputAt =>
          .ok (if code = 1 then .add lhsAt rhsAt outputAt else .mul lhsAt rhsAt outputAt)
  else .error (.unknownOpcode code)

/-- `Instruction::apply` of day-2. Returns the `Result<bool>` (`true` = halt)
together with the memory the call leaves behind (unchanged on failure, since
both reads precede the single write and a failing write does not store). -/
def apply : Instruction → List Nat → (Except VMError Bool) × List Nat
  | .add a b dst, mem =>
    match getScalarAt mem a with
    | .error e => (.error e, mem)
    | .ok lhs =>
      match getScalarAt mem b with
      | .error e => (.error e, mem)
      | .ok rhs =>
        match setScalarAt mem dst ((lhs + rhs) % WORD) with
        | .error e => (.error e, mem)
        | .ok mem' => (.ok false, mem')
  | .mul a b dst, mem =>
    match getScalarAt mem a with
    | .error e => (.error e, mem)
    | .ok lhs =>
      match getScalarAt mem b with
      | .error e => (.error e, mem)
      | .ok rhs =>
        match setScalarAt mem dst ((lhs * rhs) % WORD) with
        | .error e => (.error e, mem)
        | .ok mem' => (.ok false, mem')
  | .halt, mem => (.ok true, mem)

/-- `VirtualMachine::step` of day-2. After a non-halting instruction the
program counter is advanced by 4 and then passed through
`num_traits::clamp(pc, 0, memory.len() - 1)`, i.e. `min (pc+4) (len-1)`
since the counter is non-negative. -/
def step (vm : VM) : (Except VMError Bool) × VM :=
  match getScalarAt vm.memory vm.programCounter with
  | .error e => (.error e, vm)
  | .ok currentStep =>
    match decode vm.programCounter currentStep vm.memory with
    | .error e => (.error e, vm)
    | .ok inst =>
      match apply inst vm.memory with
      | (.error e, mem') => (.error e, ⟨vm.programCounter, mem'⟩)
      | (.ok true, mem') => (.ok true, ⟨vm.programCounter, mem'⟩)
      | (.ok false, mem') => (.ok false, ⟨min (vm.programCounter + 4) (mem'.length - 1), mem'⟩)

/-- `VirtualMachine::run` of day-2 with explicit fuel: loop `step` until it
reports a halt or fails. `none` = fuel exhausted (loop still running). -/
def runFuel : Nat → VM → Option ((Except VMError Unit) × VM)
  | 0, _ => none
  | fuel + 1, vm =>
    match step vm with
    | (.error e, vm') => some (.error e, vm')
    | (.ok true, vm') => some (.ok (), vm')
    | (.ok false, vm') => runFuel fuel vm'

end Day2

namespace Day5

/-- `Instruction` of `day-5/main.rs`: day-2's set plus `Input` / `Output`. -/
inductive Instruction where
  | add (lhsAt rhsAt outputAt : Nat)
  | mul (lhsAt rhsAt outputAt : Nat)
  | input (outputAt : Nat)
  | output (inputAt : Nat)
  | halt
  deriving DecidableEq

/-- Accumulator loop of Rust's `from_str_radix` digit phase: consume decimal
digits; any other character is an invalid digit. -/
def digitsAccum : List Char → Nat → Option Nat
  | [], acc => some acc
  | c :: cs, acc =>
    if '0' ≤ c ∧ c ≤ '9' then digitsAccum cs (acc * 10 + (c.toNat - '0'.toNat))
    else none

/-- Digit phase of `usize::from_str`: at least one decimal digit, and the
value must fit (Rust reports `PosOverflow` step-wise through `checked_mul` /
`checked_add`; for base 10 that is equivalent to the final value being
`< 2^64` since the accumulator grows monotonically). -/
def digitsValue? (cs : List Char) : Option Nat :=
  match cs with
  | [] => none
  | _ =>
    match digitsAccum cs 0 with
    | none => none
    | some v => if v < WORD then some v else none

/-- `str::parse::<usize>()`: optional leading `'+'` (a `'-'` sign is only
accepted for signed types, so for `usize` it is just an invalid digit), then
one or more decimal digits; no surrounding whitespace is stripped. -/
def rustParseUsize (cs : List Char) : Option Nat :=
  match cs with
  | [] => none
  | '+' :: rest => digitsValue? rest
  | _ => digitsValue? cs

/-- Rust `str::split(',')` on the character list: split on every comma,
keeping empty tokens (so the empty string yields one empty token). -/
def splitComma : List Char → List (List Char)
  | [] => [[]]
  | c :: cs =>
    if c = ',' then [] :: splitComma cs
    else
      match splitComma cs with
      | [] => [[c]]
      | t :: ts => (c :: t) :: ts

/-- Loop body of day-5 `TryFrom<String> for MemoryBank`: parse the tokens in
order, pushing each scalar; the first token that fails to parse aborts the
whole construction with an error naming that token. -/
def parseTokens : List (List Char) → Except VMError (List Nat)
  | [] => .ok []
  | t :: ts =>
    match rustParseUsize t with
    | none => .error (.cannotParseScalar (String.mk t))
    | some v =>
      match parseTokens ts with
      | .error e => .error e
      | .ok vs => .ok (v :: vs)

/-- `TryFrom<String> for MemoryBank` of day-5: split the input on commas and
parse every token as a `usize` scalar. -/
def memoryBankTryFrom (s : String) : Except VMError (List Nat) :=
  parseTokens (splitComma s.data)

/-- `Instruction::decode` of day-5. The source renders the opcode word as a
string, indexes `code_chars[len-2]` and `code_chars[len-1]` (which panics by
index underflow whenever the word has a single digit), parses those two
characters as the two-digit opcode — and then never uses that value: the
`match` that selects the instruction is on the full word `code`. -/
def decode (pc code : Nat) (mem : List Nat) : PResult Instruction :=
  let codeChars := (Nat.repr code).data
  if codeChars.length < 2 then
    .panic
  else
    let c1 := codeChars.getD (codeChars.length - 2) '0'
    let c2 := codeChars.getD (codeChars.length - 1) '0'
    match rustParseUsize [c1, c2] with
    | none => .error (.opcodeParseFailure (String.mk [c1, c2]))
    | some _opcode =>
      if code = 99 then .ok .halt
      else if code = 1 || code = 2 then
        match getScalarAt mem (pc + 1) with
        | .error e => .error e
        | .ok lhsAt =>
          match getScalarAt mem (pc + 2) with
          | .error e => .error e
          | .ok rhsAt =>
            match getScalarAt mem (pc + 3) with
            | .error e => .error e
            | .ok outputAt =>
              .ok (if code = 1 then .add lhsAt rhsAt outputAt else .mul lhsAt rhsAt outputAt)
      else .error (.unknownOpcode code)

/-- `Instruction::apply` of day-5. The source lists the wildcard arm
`_ => false` BEFORE the `Instruction::Halt => true` arm, so the `Halt` arm is
unreachable: every non-arithmetic instruction, `Halt` included, reports "not
halted". -/
def apply : Instruction → List Nat → (Except VMError Bool) × List Nat
  | .add a b dst, mem =>
    match getScalarAt mem a with
    | .error e => (.error e, mem)
    | .ok lhs =>
      match getScalarAt mem b with
      | .error e => (.error e, mem)
      | .ok rhs =>
        match setScalarAt mem dst ((lhs + rhs) % WORD) with
        | .error e => (.error e, mem)
        | .ok mem' => (.ok false, mem')
  | .mul a b dst, mem =>
    match getScalarAt mem a with
    | .error e => (.error e, mem)
    | .ok lhs =>
      match getScalarAt mem b with
      | .error e => (.error e, mem)
      | .ok rhs =>
        match setScalarAt mem dst ((lhs * rhs) % WORD) with
        | .error e => (.error e, mem)
        | .ok mem' => (.ok false, mem')
  | _, mem => (.ok false, mem)

/-- `VirtualMachine::step` of day-5: like day-2 but the advanced program
counter is NOT clamped, and any panic inside `decode` aborts. -/
def step (vm : VM) : PResult (Bool × VM) :=
  match getScalarAt vm.memory vm.programCounter with
  | .error e => .error e
  | .ok currentStep =>
    match decode vm.programCounter currentStep vm.memory with
    | .panic => .panic
    | .error e => .error e
    | .ok inst =>
      match apply inst vm.memory with
      | (.error e, _) => .error e
      | (.ok halted, mem') =>
        if halted then .ok (true, ⟨vm.programCounter, mem'⟩)
        else .ok (false, ⟨vm.programCounter + 4, mem'⟩)

/-- `VirtualMachine::run` of day-5 with explicit fuel. -/
def runFuel : Nat → VM → Option (PResult VM)
  | 0, _ => none
  | fuel + 1, vm =>
    match step vm with
    | .panic => some .panic
    | .error e => some (.error e)
    | .ok (true, vm') => some (.ok vm')
    | .ok (false, vm') => runFuel fuel vm'

end Day5

/-- Outcome of `compute_solution_2` (both day files): the found encoding, a
propagated VM/memory error, `NoSolutionFound`, a panic from the unguarded
`unwrap`s, or fuel exhaustion of an embedded `run`. -/
inductive SearchOutcome where
  | panic
  | outOfFuel
  | error (e : VMError)
  | ok (value : Nat)
  deriving DecidableEq

/-- Trial-tape construction shared by both `compute_solution_2` versions:
`*vm_tape.get_mut(1).unwrap() = noun; *vm_tape.get_mut(2).unwrap() = verb`.
`none` models the `unwrap` panic, which fires exactly when the tape has
fewer than 3 cells. -/
def trialTape (tape : List Nat) (noun verb : Nat) : Option (List Nat) :=
  if 2 < tape.length then some ((tape.set 1 noun).set 2 verb) else none

/-- Inner `for verb in 0..100` loop: run the per-pair trial, propagating the
first non-`none` outcome (`some` = early return / failure, `none` = keep
searching). -/
def verbLoop (trial : Nat → Nat → Option SearchOutcome) (noun : Nat) :
    List Nat → Option SearchOutcome
  | [] => none
  | v :: vs =>
    match trial noun v with
    | some r => some r
    | none => verbLoop trial noun vs

/-- Outer `for noun in 0..100` loop. -/
def nounLoop (trial : Nat → Nat → Option SearchOutcome) :
    List Nat → Option SearchOutcome
  | [] => none
  | n :: ns =>
    match verbLoop trial n (List.range 100) with
    | some r => some r
    | none => nounLoop trial ns

/-- `compute_solution_2` driver skeleton shared by both day files: exhaust the
`100 × 100` noun/verb space; if no trial returned, fail with the
no-solution error. -/
def searchDriver (trial : Nat → Nat → Option SearchOutcome) : SearchOutcome :=
  match nounLoop trial (List.range 100) with
  | some r => r
  | none => .error .noSolutionFound

/-- `COMPUTE_SOLUTION_2_TARGET` (same constant in both day files). -/
def COMPUTE_SOLUTION_2_TARGET : Nat := 19690720

namespace Day2

/-- One day-2 trial of `compute_solution_2`: substitute the pair, reset the VM
and run it, then compare memory cell 0 with the target. `some` terminates the
search (success or propagated failure), `none` continues it. -/
def trialResult (fuel target : Nat) (tape : List Nat) (noun verb : Nat) :
    Option SearchOutcome :=
  match trialTape tape noun verb with
  | none => some .panic
  | some t =>
    match runFuel fuel (VM.fromTape t) with
    | none => some .outOfFuel
    | some (.error e, _) => some (.error e)
    | some (.ok _, vm) =>
      match getScalarAt vm.memory 0 with
      | .error e => some (.error e)
      | .ok v => if v = target then some (.ok (100 * noun + verb)) else none

/-- Day-2 `compute_solution_2`, generalized over the target constant. -/
def computeSolution2With (fuel target : Nat) (tape : List Nat) : SearchOutcome :=
  searchDriver (trialResult fuel target tape)

/-- Day-2 `compute_solution_2` (fixed target `19690720`). -/
def computeSolution2 (fuel : Nat) (tape : List Nat) : SearchOutcome :=
  computeSolution2With fuel COMPUTE_SOLUTION_2_TARGET tape

/-- The value a day-2 trial leaves in memory cell 0, when the whole trial
(substitution, run, final read) succeeds. -/
def trialCellZero (fuel : Nat) (tape : List Nat) (noun verb : Nat) : Option Nat :=
  match trialTape tape noun verb with
  | none => none
  | some t =>
    match runFuel fuel (VM.fromTape t) with
    | some (.ok _, vm) =>
      match getScalarAt vm.memory 0 with
      | .ok v => some v
      | .error _ => none
    | _ => none

end Day2

namespace Day5

/-- One day-5 trial of `compute_solution_2` (same source text as day-2's, but
driving the day-5 VM, whose `run` can also panic). -/
def trialResult (fuel target : Nat) (tape : List Nat) (noun verb : Nat) :
    Option SearchOutcome :=
  match trialTape tape noun verb with
  | none => some .panic
  | some t =>
    match runFuel fuel (VM.fromTape t) with
    | none => some .outOfFuel
    | some .panic => some .panic
    | some (.error e) => some (.error e)
    | some (.ok vm) =>
      match getScalarAt vm.memory 0 with
      | .error e => some (.error e)
      | .ok v => if v = target then some (.ok (100 * noun + verb)) else none

/-- Day-5 `compute_solution_2`, generalized over the target constant. -/
def computeSolution2With (fuel target : Nat) (tape : List Nat) : SearchOutcome :=
  searchDriver (trialResult fuel target tape)

end Day5

/-- The noun-major, ascending enumeration `(0,0), (0,1) … (0,99), (1,0) …` of
the search space, spelled out from the spec's description of the loop order. -/
def searchPairs : List (Nat × Nat) :=
  (List.range 100).flatMap (fun n => (List.range 100).map (fun v => (n, v)))

/-! Helper lemmas about the memory primitives. -/

lemma getScalarAt_eq_error (mem : List Nat) (i : Nat) (h : mem.length ≤ i) :
    getScalarAt mem i = .error (.readOutOfBounds i) := by
  simp [getScalarAt, List.getElem?_eq_none h]

lemma getScalarAt_eq_ok (mem : List Nat) (i : Nat) (h : i < mem.length) :
    getScalarAt mem i = .ok (mem.getD i 0) := by
  simp [getScalarAt, List.getElem?_eq_getElem h, List.getD_eq_getElem mem 0 h]

lemma setScalarAt_eq_error (mem : List Nat) (i v : Nat) (h : mem.length ≤ i) :
    setScalarAt mem i v = .error (.writeOutOfBounds i) := by
  simp [setScalarAt, List.getElem?_eq_none h]

lemma setScalarAt_eq_ok (mem : List Nat) (i v : Nat) (h : i < mem.length) :
    setScalarAt mem i v = .ok (mem.set i v) := by
  simp [setScalarAt, List.getElem?_eq_getElem h]

/-- Day-5's `apply` never reports "halted": the wildcard arm `_ => false`
precedes (and shadows) the `Halt => true` arm. -/
lemma Day5.apply_not_halt (inst : Day5.Instruction) (mem : List Nat) :
    (Day5.apply inst mem).1 ≠ Except.ok true := by
  cases inst <;> simp only [Day5.apply] <;> (repeat' split) <;> simp

/-- C1: `run()` on the three example tapes. The day-2 interpreter halts
without error with exactly the stated final memories (in 2, 2 and 3 steps
respectively, and `runFuel` is constant once the halt is reached). The day-5
interpreter instead panics on the very first step of the first example —
`decode` underflows `code_chars[len - 2]` on the one-digit opcode word `1` —
so the claim's statement about `run()` fails for `day-5/main.rs` even though
its own `test_day_5_virtual_machine_running` asserts it. -/
theorem c1_run_examples :
    Day2.runFuel 2 (VM.fromTape [1, 0, 0, 0, 99]) =
      some (.ok (), ⟨4, [2, 0, 0, 0, 99]⟩) ∧
    Day2.runFuel 2 (VM.fromTape [2, 3, 0, 3, 99]) =
      some (.ok (), ⟨4, [2, 3, 0, 6, 99]⟩) ∧
    Day2.runFuel 3 (VM.fromTape [1, 1, 1, 4, 99, 5, 6, 0, 99]) =
      some (.ok (), ⟨8, [30, 1, 1, 4, 2, 5, 6, 0, 99]⟩) ∧
    Day5.runFuel 1 (VM.fromTape [1, 0, 0, 0, 99]) = some .panic ∧
    Day5.runFuel 1 (VM.fromTape [2, 3, 0, 3, 99]) = some .panic ∧
    Day5.runFuel 1 (VM.fromTape [1, 1, 1, 4, 99, 5, 6, 0, 99]) = some .panic := by
  refine ⟨?_, ?_, ?_, ?_, ?_, ?_⟩ <;> decide

/-- C7: stepping the example tape twice. The day-2 `step()` yields exactly the
claimed memories and program counters 4 and 8. The day-5 `step()` panics
immediately on the same tape (opcode word `1` has a one-character digit
string), although its own `test_day_5_virtual_machine_stepping` asserts the
claimed behavior. -/
theorem c7_two_steps :
    Day2.step ⟨0, [1, 9, 10, 3, 2, 3, 11, 0, 99, 30, 40, 50]⟩ =
      (.ok false, ⟨4, [1, 9, 10, 70, 2, 3, 11, 0, 99, 30, 40, 50]⟩) ∧
    Day2.step ⟨4, [1, 9, 10, 70, 2, 3, 11, 0, 99, 30, 40, 50]⟩ =
      (.ok false, ⟨8, [3500, 9, 10, 70, 2, 3, 11, 0, 99, 30, 40, 50]⟩) ∧
    Day5.step ⟨0, [1, 9, 10, 3, 2, 3, 11, 0, 99, 30, 40, 50]⟩ = .panic := by
  refine ⟨?_, ?_, ?_⟩ <;> decide

/-- C3: day-5 `decode` does NOT tolerate leading parameter-mode digits. For
the words `101` and `102` (mode digit `1` in front of opcodes `01` / `02`) it
extracts and parses the two-digit opcode, never uses it, matches the full
word against `1` / `2` / `99`, and reports `UnknownOpcode` instead of
returning an `Add` / `Multiply` instruction. -/
theorem c3_decode_rejects_mode_digits :
    Day5.decode 0 101 [101, 5, 6, 7, 0, 0, 0, 0] = .error (.unknownOpcode 101) ∧
    Day5.decode 0 102 [102, 5, 6, 7, 0, 0, 0, 0] = .error (.unknownOpcode 102) := by
  refine ⟨?_, ?_⟩ <;> decide

/-- C4: day-5 `decode` is not total. On the single-digit opcode words `1` and
`2` — the words its own tests feed it — `code_chars[code_chars.len() - 2]`
underflows the index and the function panics instead of returning a decoded
instruction or an error. (The day-2 `decode`, embedded as `Day2.decode`, is a
total Lean function into `Except`, so the claim holds for day-2.) -/
theorem c4_decode_panics_on_single_digit :
    Day5.decode 0 1 [1, 0, 0, 0, 99] = .panic ∧
    Day5.decode 0 2 [2, 3, 0, 3, 99] = .panic ∧
    Day2.decode 0 1 [1, 0, 0, 0, 99] = .ok (.add 0 0 0) ∧
    Day2.decode 0 2 [2, 3, 0, 3, 99] = .ok (.mul 3 0 3) := by
  refine ⟨?_, ?_, ?_, ?_⟩ <;> decide

/-- C2 counterexample: the claim "new pc = old pc + fixed arity, with no
clamping; Halt leaves pc unchanged" fails on both files. Day-2: on the
4-cell tape `[1,0,0,0]` a step succeeds (instruction `Add`, not `Halt`) but
the clamp leaves pc `3 = min (0+4) (4-1)`, not `4`. Day-5: the word `99`
decodes to `Halt`, yet the step succeeds as "not halted" and advances pc by 4
(the wildcard arm of `apply` shadows the `Halt` arm). -/
theorem c2_counterexample :
    Day2.step ⟨0, [1, 0, 0, 0]⟩ = (.ok false, ⟨3, [2, 0, 0, 0]⟩) ∧
    (3 : Nat) ≠ 0 + 4 ∧
    Day5.decode 0 99 [99, 0, 0] = .ok .halt ∧
    Day5.step ⟨0, [99, 0, 0]⟩ = .ok (false, ⟨4, [99, 0, 0]⟩) ∧
    (4 : Nat) ≠ 0 := by
  refine ⟨?_, ?_, ?_, ?_, ?_⟩ <;> decide

/-- C2 (amended): in day-2, a successful non-`Halt` step sets the program
counter to `min (pc + 4) (len - 1)` — the `num_traits::clamp` call — which
equals `pc + 4` exactly when that stays below the memory length; a `Halt`
step leaves the counter unchanged. In day-5 a successful step never reports
halted, and always advances the counter by exactly 4 (unclamped), also when
the decoded instruction is `Halt`. -/
theorem c2_pc_advance :
    (∀ (vm vm' : VM) (b : Bool), Day2.step vm = (.ok b, vm') →
      vm'.programCounter =
        if b then vm.programCounter
        else min (vm.programCounter + 4) (vm'.memory.length - 1)) ∧
    (∀ (vm : VM) (p : Bool × VM), Day5.step vm = .ok p →
      p.1 = false ∧ p.2.programCounter = vm.programCounter + 4) := by
  constructor
  · intro vm vm' b h
    unfold Day2.step at h
    cases hg : getScalarAt vm.memory vm.programCounter with
    | error e => simp [hg] at h
    | ok cur =>
      simp only [hg] at h
      cases hd : Day2.decode vm.programCounter cur vm.memory with
      | error e => simp [hd] at h
      | ok inst =>
        simp only [hd] at h
        rcases ha : Day2.apply inst vm.memory with ⟨res, mem'⟩
        cases res with
        | error e => simp [ha] at h
        | ok halted =>
          cases halted with
          | true =>
            simp only [ha] at h
            injection h with h1 h2
            injection h1 with hb
            subst hb
            subst h2
            simp
          | false =>
            simp only [ha] at h
            injection h with h1 h2
            injection h1 with hb
            subst hb
            subst h2
            simp
  · intro vm p h
    unfold Day5.step at h
    cases hg : getScalarAt vm.memory vm.programCounter with
    | error e => simp [hg] at h
    | ok cur =>
      simp only [hg] at h
      cases hd : Day5.decode vm.programCounter cur vm.memory with
      | panic => simp [hd] at h
      | error e => simp [hd] at h
      | ok inst =>
        simp only [hd] at h
        rcases ha : Day5.apply inst vm.memory with ⟨res, mem'⟩
        cases res with
        | error e => simp [ha] at h
        | ok halted =>
          cases halted with
          | true =>
            have hne := Day5.apply_not_halt inst vm.memory
            rw [ha] at hne
            simp at hne
          | false =>
            simp only [ha] at h
            simp at h
            subst h
            exact ⟨rfl, rfl⟩

/-- C2 witness: the amended theorem applied to the concrete day-2 step on
`[1,0,0,0]` (clamped advance) and the concrete day-5 step on `[99,0,0]`. -/
theorem c2_pc_advance_witness :
    (⟨3, [2, 0, 0, 0]⟩ : VM).programCounter =
      (if false then (0 : Nat) else min (0 + 4) (([2, 0, 0, 0] : List Nat).length - 1)) ∧
    ((false, (⟨4, [99, 0, 0]⟩ : VM)).1 = false ∧
      (false, (⟨4, [99, 0, 0]⟩ : VM)).2.programCounter = 0 + 4) := by
  constructor
  · exact c2_pc_advance.1 ⟨0, [1, 0, 0, 0]⟩ ⟨3, [2, 0, 0, 0]⟩ false (by decide)
  · exact c2_pc_advance.2 ⟨0, [99, 0, 0]⟩ (false, ⟨4, [99, 0, 0]⟩) (by decide)

/-- C6: if a decoded day-2 instruction references any operand or destination
address at or past the end of memory, `apply` fails with an out-of-bounds
error and returns the memory exactly as it was (both reads precede the single
write, and a failing write stores nothing). -/
theorem c6_apply_out_of_bounds (inst : Day2.Instruction) (mem : List Nat)
    (h : ∃ r ∈ inst.refs, mem.length ≤ r) :
    (∃ e, (Day2.apply inst mem).1 = .error e ∧ e.isOutOfBounds = true) ∧
    (Day2.apply inst mem).2 = mem := by
  cases inst with
  | halt => simp [Day2.Instruction.refs] at h
  | add a b dst =>
    by_cases ha : a < mem.length
    · by_cases hb : b < mem.length
      · by_cases hdst : dst < mem.length
        · rcases h with ⟨r, hr, hler⟩
          simp [Day2.Instruction.refs] at hr
          rcases hr with rfl | rfl | rfl <;> omega
        · have heq : Day2.apply (.add a b dst) mem = (.error (.writeOutOfBounds dst), mem) := by
            simp [Day2.apply, getScalarAt_eq_ok mem a ha, getScalarAt_eq_ok mem b hb,
              setScalarAt_eq_error mem dst _ (Nat.le_of_not_lt hdst)]
          rw [heq]
          exact ⟨⟨_, rfl, rfl⟩, rfl⟩
      · have heq : Day2.apply (.add a b dst) mem = (.error (.readOutOfBounds b), mem) := by
          simp [Day2.apply, getScalarAt_eq_ok mem a ha,
            getScalarAt_eq_error mem b (Nat.le_of_not_lt hb)]
        rw [heq]
        exact ⟨⟨_, rfl, rfl⟩, rfl⟩
    · have heq : Day2.apply (.add a b dst) mem = (.error (.readOutOfBounds a), mem) := by
        simp [Day2.apply, getScalarAt_eq_error mem a (Nat.le_of_not_lt ha)]
      rw [heq]
      exact ⟨⟨_, rfl, rfl⟩, rfl⟩
  | mul a b dst =>
    by_cases ha : a < mem.length
    · by_cases hb : b < mem.length
      · by_cases hdst : dst < mem.length
        · rcases h with ⟨r, hr, hler⟩
          simp [Day2.Instruction.refs] at hr
          rcases hr with rfl | rfl | rfl <;> omega
        · have heq : Day2.apply (.mul a b dst) mem = (.error (.writeOutOfBounds dst), mem) := by
            simp [Day2.apply, getScalarAt_eq_ok mem a ha, getScalarAt_eq_ok mem b hb,
              setScalarAt_eq_error mem dst _ (Nat.le_of_not_lt hdst)]
          rw [heq]
          exact ⟨⟨_, rfl, rfl⟩, rfl⟩
      · have heq : Day2.apply (.mul a b dst) mem = (.error (.readOutOfBounds b), mem) := by
          simp [Day2.apply, getScalarAt_eq_ok mem a ha,
            getScalarAt_eq_error mem b (Nat.le_of_not_lt hb)]
        rw [heq]
        exact ⟨⟨_, rfl, rfl⟩, rfl⟩
    · have heq : Day2.apply (.mul a b dst) mem = (.error (.readOutOfBounds a), mem) := by
        simp [Day2.apply, getScalarAt_eq_error mem a (Nat.le_of_not_lt ha)]
      rw [heq]
      exact ⟨⟨_, rfl, rfl⟩, rfl⟩

/-- C6 witness: `Add 5 0 0` on the 3-cell memory `[1,2,3]` (operand address 5
out of bounds). -/
theorem c6_apply_out_of_bounds_witness :
    (∃ e, (Day2.apply (.add 5 0 0) [1, 2, 3]).1 = .error e ∧ e.isOutOfBounds = true) ∧
    (Day2.apply (.add 5 0 0) [1, 2, 3]).2 = [1, 2, 3] :=
  c6_apply_out_of_bounds (.add 5 0 0) [1, 2, 3] ⟨5, by decide, by decide⟩

/-- C8 counterexample: with `usize` cells the claim "cell `dst` receives
`read(a) + read(b)`" fails when the sum overflows the 64-bit word: adding
`2^63` to `2^63` stores `0` (release-mode wrapping; a debug build aborts),
not `2^64`. -/
theorem c8_counterexample :
    Day2.apply (.add 0 1 2) [9223372036854775808, 9223372036854775808, 7] =
      (.ok false, [9223372036854775808, 9223372036854775808, 0]) ∧
    (9223372036854775808 + 9223372036854775808 : Nat) ≠ 0 := by
  refine ⟨?_, ?_⟩ <;> decide

/-- C8 (amended): for every `Add`/`Multiply` whose operand and destination
addresses are in bounds AND whose exact result fits in the 64-bit word (so
that wrapping cannot occur and debug and release builds agree), `apply` (in
both day files) returns `false` and writes exactly one cell: `dst` receives
the sum (resp. product) of the operand cells, and every other cell is
unchanged. -/
theorem c8_apply_writes_one_cell (mem : List Nat) (a b dst : Nat)
    (ha : a < mem.length) (hb : b < mem.length) (hdst : dst < mem.length) :
    (mem.getD a 0 + mem.getD b 0 < WORD →
      Day2.apply (.add a b dst) mem = (.ok false, mem.set dst (mem.getD a 0 + mem.getD b 0)) ∧
      Day5.apply (.add a b dst) mem = (.ok false, mem.set dst (mem.getD a 0 + mem.getD b 0)) ∧
      (mem.set dst (mem.getD a 0 + mem.getD b 0))[dst]? = some (mem.getD a 0 + mem.getD b 0) ∧
      ∀ i, i ≠ dst → (mem.set dst (mem.getD a 0 + mem.getD b 0))[i]? = mem[i]?) ∧
    (mem.getD a 0 * mem.getD b 0 < WORD →
      Day2.apply (.mul a b dst) mem = (.ok false, mem.set dst (mem.getD a 0 * mem.getD b 0)) ∧
      Day5.apply (.mul a b dst) mem = (.ok false, mem.set dst (mem.getD a 0 * mem.getD b 0)) ∧
      (mem.set dst (mem.getD a 0 * mem.getD b 0))[dst]? = some (mem.getD a 0 * mem.getD b 0) ∧
      ∀ i, i ≠ dst → (mem.set dst (mem.getD a 0 * mem.getD b 0))[i]? = mem[i]?) := by
  constructor <;> intro hlt <;> simp only [List.getD_eq_getElem?_getD] at hlt <;>
    refine ⟨?_, ?_, ?_, fun i hi => List.getElem?_set_ne (Ne.symm hi)⟩
  · simp [Day2.apply, getScalarAt_eq_ok mem a ha, getScalarAt_eq_ok mem b hb,
      Nat.mod_eq_of_lt hlt, setScalarAt_eq_ok mem dst _ hdst]
  · simp [Day5.apply, getScalarAt_eq_ok mem a ha, getScalarAt_eq_ok mem b hb,
      Nat.mod_eq_of_lt hlt, setScalarAt_eq_ok mem dst _ hdst]
  · exact List.getElem?_set_self hdst
  · simp [Day2.apply, getScalarAt_eq_ok mem a ha, getScalarAt_eq_ok mem b hb,
      Nat.mod_eq_of_lt hlt, setScalarAt_eq_ok mem dst _ hdst]
  · simp [Day5.apply, getScalarAt_eq_ok mem a ha, getScalarAt_eq_ok mem b hb,
      Nat.mod_eq_of_lt hlt, setScalarAt_eq_ok mem dst _ hdst]
  · exact List.getElem?_set_self hdst

/-- C8 witness: `Add 0 1 2` on `[2,3,7]` stores `5` in cell 2 in both VMs. -/
theorem c8_apply_writes_one_cell_witness :
    Day2.apply (.add 0 1 2) [2, 3, 7] = (.ok false, [2, 3, 5]) ∧
    Day5.apply (.add 0 1 2) [2, 3, 7] = (.ok false, [2, 3, 5]) := by
  have h := (c8_apply_writes_one_cell [2, 3, 7] 0 1 2 (by decide) (by decide) (by decide)).1
    (by decide)
  exact ⟨h.1, h.2.1⟩

/-- Characterization of the day-5 tape-parsing loop: it fails naming the
first unparsable token, and otherwise returns all parsed tokens in order. -/
lemma parseTokens_find (ts : List (List Char)) :
    match ts.find? (fun t => (Day5.rustParseUsize t).isNone) with
    | some t => Day5.parseTokens ts = .error (.cannotParseScalar (String.mk t))
    | none => Day5.parseTokens ts = .ok (ts.filterMap Day5.rustParseUsize) := by
  induction ts with
  | nil => simp [Day5.parseTokens]
  | cons t ts ih =>
    cases hp : Day5.rustParseUsize t with
    | none =>
      rw [List.find?_cons_of_pos _ (by simp [hp])]
      simp [Day5.parseTokens, hp]
    | some v =>
      rw [List.find?_cons_of_neg _ (by simp [hp])]
      cases hf : ts.find? (fun t => (Day5.rustParseUsize t).isNone) with
      | some t' =>
        simp only [hf] at ih
        simp [Day5.parseTokens, hp, ih]
      | none =>
        simp only [hf] at ih
        simp [Day5.parseTokens, hp, ih, List.filterMap_cons]

/-- C9 (amended): `MemoryBank` construction from a textual tape succeeds
exactly when every comma-separated token parses as a Rust `usize` — a
nonnegative decimal integer with an optional leading `'+'`, no surrounding
whitespace, value below `2^64` — yielding the parsed (unsigned) cells in
order; otherwise it fails with an error naming the first offending token.
Negative tokens and whitespace-padded tokens are therefore rejected, since
the cell type `Scalar` is the unsigned `usize` and `str::parse` does not
trim. -/
theorem c9_tape_parsing (s : String) :
    match (Day5.splitComma s.data).find? (fun t => (Day5.rustParseUsize t).isNone) with
    | some t => Day5.memoryBankTryFrom s = .error (.cannotParseScalar (String.mk t))
    | none => Day5.memoryBankTryFrom s =
        .ok ((Day5.splitComma s.data).filterMap Day5.rustParseUsize) :=
  parseTokens_find (Day5.splitComma s.data)

/-- C9 counterexample: the tape `"-1"` (negative cell) is rejected — cells
are `usize`, not signed — and the tape `"1, 2"` (token with surrounding
whitespace) is rejected with an error naming the token `" 2"`, while the
claim says both constructions succeed. -/
theorem c9_counterexample :
    Day5.memoryBankTryFrom "-1" = .error (.cannotParseScalar "-1") ∧
    Day5.memoryBankTryFrom "1, 2" = .error (.cannotParseScalar " 2") ∧
    Day5.memoryBankTryFrom "1,2" = .ok [1, 2] := by
  refine ⟨?_, ?_, ?_⟩ <;> decide

/-- When the whole day-2 trial (substitution, run, read of cell 0) succeeds,
the loop body returns the encoded pair exactly when cell 0 matches the
target, and signals "keep searching" otherwise. -/
lemma trialResult_eq_of_cell (fuel target : Nat) (tape : List Nat) (noun verb cz : Nat)
    (hcz : Day2.trialCellZero fuel tape noun verb = some cz) :
    Day2.trialResult fuel target tape noun verb =
      if cz = target then some (.ok (100 * noun + verb)) else none := by
  unfold Day2.trialCellZero at hcz
  unfold Day2.trialResult
  cases htt : trialTape tape noun verb with
  | none => simp [htt] at hcz
  | some t =>
    simp only [htt] at hcz ⊢
    cases hr : Day2.runFuel fuel (VM.fromTape t) with
    | none => simp [hr] at hcz
    | some res =>
      rcases res with ⟨u, vm⟩
      cases u with
      | error e => simp [hr] at hcz
      | ok u' =>
        simp only [hr] at hcz ⊢
        cases hg : getScalarAt vm.memory 0 with
        | error e => simp [hg] at hcz
        | ok w =>
          simp only [hg] at hcz ⊢
          injection hcz with hw
          subst hw
          rfl

/-- The inner `verb` loop of day-2 `compute_solution_2` returns the first
verb (in list order) whose trial hits the target, encoded. -/
lemma verbLoop_eq_find (fuel target : Nat) (tape : List Nat) (noun : Nat) (vs : List Nat)
    (h : ∀ v ∈ vs, (Day2.trialCellZero fuel tape noun v).isSome = true) :
    verbLoop (Day2.trialResult fuel target tape) noun vs =
      (vs.find? (fun v => Day2.trialCellZero fuel tape noun v == some target)).map
        (fun v => SearchOutcome.ok (100 * noun + v)) := by
  induction vs with
  | nil => rfl
  | cons v vs ih =>
    obtain ⟨cz, hcz⟩ := Option.isSome_iff_exists.mp (h v (by simp))
    have htr := trialResult_eq_of_cell fuel target tape noun v cz hcz
    by_cases hveq : cz = target
    · have hpred : (fun w => Day2.trialCellZero fuel tape noun w == some target) v = true := by
        simp [hcz, hveq]
      rw [@List.find?_cons_of_pos _
        (fun w => Day2.trialCellZero fuel tape noun w == some target) v vs hpred]
      simp [verbLoop, htr, hveq]
    · have hpred : ¬(fun w => Day2.trialCellZero fuel tape noun w == some target) v = true := by
        simp [hcz, hveq]
      rw [@List.find?_cons_of_neg _
        (fun w => Day2.trialCellZero fuel tape noun w == some target) v vs hpred]
      simp only [verbLoop, htr, if_neg hveq]
      exact ih (fun w hw => h w (List.mem_cons_of_mem _ hw))

/-- The outer `noun` loop of day-2 `compute_solution_2` returns the first
pair of the noun-major enumeration whose trial hits the target, encoded. -/
lemma nounLoop_eq_find (fuel target : Nat) (tape : List Nat) (ns : List Nat)
    (h : ∀ n ∈ ns, ∀ v, v < 100 → (Day2.trialCellZero fuel tape n v).isSome = true) :
    nounLoop (Day2.trialResult fuel target tape) ns =
      ((ns.flatMap (fun n => (List.range 100).map (fun v => (n, v)))).find?
          (fun p => Day2.trialCellZero fuel tape p.1 p.2 == some target)).map
        (fun p => SearchOutcome.ok (100 * p.1 + p.2)) := by
  induction ns with
  | nil => rfl
  | cons n ns ih =>
    have hcomp : ((fun p : Nat × Nat => Day2.trialCellZero fuel tape p.1 p.2 == some target) ∘
        (fun v => (n, v))) = (fun v => Day2.trialCellZero fuel tape n v == some target) := rfl
    rw [List.flatMap_cons, List.find?_append, List.find?_map, hcomp]
    have hverb := verbLoop_eq_find fuel target tape n (List.range 100)
      (fun v hv => h n (by simp) v (List.mem_range.mp hv))
    cases hf : (List.range 100).find?
        (fun v => Day2.trialCellZero fuel tape n v == some target) with
    | some v =>
      simp only [hf] at hverb
      simp only [nounLoop, hverb, Option.map_some]
      simp [Option.or]
    | none =>
      simp only [hf] at hverb
      simp only [nounLoop, hverb, Option.map_none, Option.none_or]
      exact ih (fun m hm v hv => h m (by simp [hm]) v hv)

/-- C5: under the claim's premises (tape of at least 3 cells, every trial run
halting without error), day-2 `compute_solution_2` equals the first match of
the noun-major ascending enumeration `searchPairs`: it returns
`100 * noun + verb` for the first pair whose trial leaves the target in
cell 0 of the substituted tape, and fails with the no-solution error when no
pair of the `100 × 100` space matches. -/
theorem c5_search_enumeration (fuel target : Nat) (tape : List Nat)
    (_hlen : 3 ≤ tape.length)
    (hruns : ∀ n, n < 100 → ∀ v, v < 100 →
      (Day2.trialCellZero fuel tape n v).isSome = true) :
    Day2.computeSolution2With fuel target tape =
      match searchPairs.find?
          (fun p => Day2.trialCellZero fuel tape p.1 p.2 == some target) with
      | some p => SearchOutcome.ok (100 * p.1 + p.2)
      | none => SearchOutcome.error .noSolutionFound := by
  have hn := nounLoop_eq_find fuel target tape (List.range 100)
    (fun n hmem v hv => hruns n (List.mem_range.mp hmem) v hv)
  have hsp : searchPairs =
      (List.range 100).flatMap (fun n => (List.range 100).map (fun v => (n, v))) := rfl
  unfold Day2.computeSolution2With searchDriver
  rw [hn, hsp]
  cases hf : ((List.range 100).flatMap
      (fun n => (List.range 100).map (fun v => (n, v)))).find?
      (fun p => Day2.trialCellZero fuel tape p.1 p.2 == some target) with
  | some p => simp
  | none => simp

/-- C5 witness: on the tape `[99,0,0]` (immediate halt, cell 0 stays 99) with
target 99, every trial succeeds and the very first pair `(0,0)` matches, so
the search returns `100*0+0 = 0`. -/
theorem c5_search_enumeration_witness :
    Day2.computeSolution2With 1 99 [99, 0, 0] = .ok 0 := by
  have h := c5_search_enumeration 1 99 [99, 0, 0] (by decide) (fun n _ v _ => by rfl)
  rw [h]
  decide

/-- Both `compute_solution_2` versions panic as soon as the very first trial
pair `(0,0)` is attempted, whenever the unguarded `unwrap`s fire. -/
lemma searchDriver_panic (trial : Nat → Nat → Option SearchOutcome)
    (h : trial 0 0 = some .panic) : searchDriver trial = .panic := by
  have h100 : List.range 100 = 0 :: List.map Nat.succ (List.range 99) :=
    List.range_succ_eq_map 99
  unfold searchDriver
  rw [h100]
  simp only [nounLoop]
  rw [h100]
  simp [verbLoop, h]

/-- C10: on any tape with fewer than 3 cells, `compute_solution_2` (in both
day files) panics at the first unguarded unwrap of `vm_tape.get_mut(1)` or
`vm_tape.get_mut(2)` while substituting the very first (noun, verb) pair,
instead of returning an error value. -/
theorem c10_short_tape_panics (fuel target : Nat) (tape : List Nat) (h : tape.length < 3) :
    Day2.computeSolution2With fuel target tape = .panic ∧
    Day5.computeSolution2With fuel target tape = .panic := by
  have htt : trialTape tape 0 0 = none := by
    unfold trialTape
    rw [if_neg (by omega)]
  have h2 : Day2.trialResult fuel target tape 0 0 = some .panic := by
    unfold Day2.trialResult
    simp only [htt]
  have h5 : Day5.trialResult fuel target tape 0 0 = some .panic := by
    unfold Day5.trialResult
    simp only [htt]
  exact ⟨searchDriver_panic _ h2, searchDriver_panic _ h5⟩

/-- C10 witness: the empty tape makes both searches panic. -/
theorem c10_short_tape_panics_witness :
    Day2.computeSolution2With 1 0 [] = .panic ∧
    Day5.computeSolution2With 1 0 [] = .panic :=
  c10_short_tape_panics 1 0 [] (by decide)

end Intcode

